import Mathlib

/-!
Shallow embedding of `diff/walking/differ.go` from zouyee/containerd.

The Go file implements `walkingDiff.Compare`: it resolves caller options into
an effective configuration, rewrites overlay mount options to obtain a
read-only view, opens a writer against the content store, streams the diff
(optionally through a compressor while a side accumulator hashes the raw
bytes), commits, reconciles the uncompressed-digest label, and returns a
descriptor.  External collaborators (mount session, diff streamer, content
store) are modelled as an environment of injectable results plus a concrete
reference store; every interaction is recorded in an event trace so that
claims about cleanup and call ordering can be stated.
-/

set_option autoImplicit false

/-- Go `strings.HasPrefix` on the character lists underlying strings. -/
def hasPfx : List Char → List Char → Bool
  | [], _ => true
  | _ :: _, [] => false
  | p :: ps, c :: cs => p == c && hasPfx ps cs

/-- Go `strings.HasPrefix s pre`. -/
def goHasPfx (s pre : String) : Bool := hasPfx pre.data s.data

/-- Go `strings.TrimPrefix s pre`. -/
def goTrimPfx (s pre : String) : String :=
  if goHasPfx s pre then String.mk (s.data.drop pre.data.length) else s

/-- One iteration of the loop in `readonlyOverlay` (differ.go lines 62-68):
an `upperdir=` option records the upper directory (last one wins), a
`workdir=` option is dropped, anything else is kept in order. -/
def roPass (acc : String × List String) (o : String) : String × List String :=
  if goHasPfx o ("upperdir=") then (goTrimPfx o ("upperdir="), acc.2)
  else if goHasPfx o ("workdir=") then acc
  else (acc.1, acc.2 ++ [o])

/-- `readonlyOverlay` (differ.go lines 59-77): drop `upperdir=`/`workdir=`
options and, when an upper directory was present, prepend it to every
`lowerdir=` value separated by a colon. -/
def readonlyOverlay (opt : List String) : List String :=
  let r := opt.foldl roPass ("", [])
  if r.1 ≠ "" then
    r.2.map (fun o =>
      if goHasPfx o ("lowerdir=") then
        "lowerdir=" ++ r.1 ++ ":" ++ goTrimPfx o ("lowerdir=")
      else o)
  else r.2

/-- A mount specification (`mount.Mount`): type, source, options. -/
structure Mount where
  type : String
  source : String
  options : List String
deriving DecidableEq

/-- The per-mount effect of the loop at differ.go lines 88-93: only mounts of
type `"overlay"` have their options rewritten by `readonlyOverlay`. -/
def rewriteMount (m : Mount) : Mount :=
  if m.type = "overlay" then { m with options := readonlyOverlay m.options } else m

/-- The loop at differ.go lines 88-93 applied to the whole upper mount set. -/
def rewriteUpper (upper : List Mount) : List Mount :=
  upper.map rewriteMount

/-- Errors as the Go code observes them: `errors.New`, the sentinel values
from `errdefs`, `errors.Wrapf`/`errors.Wrap` layering, and opaque errors
returned by external collaborators. -/
inductive GoError where
  | errNew (msg : String)
  | errAlreadyExists
  | errNotImplemented
  | wrapf (e : GoError) (msg : String)
  | other (tag : Nat)
deriving DecidableEq

/-- `errdefs.IsAlreadyExists`: unwraps `errors.Wrap` layers down to the cause. -/
def GoError.isAlreadyExists : GoError → Bool
  | GoError.errAlreadyExists => true
  | GoError.wrapf e _ => e.isAlreadyExists
  | _ => false

/-- The reserved label key (differ.go line 45). -/
def uncompressed : String := "containerd.io/uncompressed"

/-- `ocispec.MediaTypeImageLayer`. -/
def MediaTypeImageLayer : String := "application/vnd.oci.image.layer.v1.tar"

/-- `ocispec.MediaTypeImageLayerGzip`. -/
def MediaTypeImageLayerGzip : String := "application/vnd.oci.image.layer.v1.tar+gzip"

/-- `diff.Config`: media type, labels (a Go map, which may be nil), presence
of a custom compressor, and the writer reference.  The compressor's byte
transformation itself lives in the environment. -/
structure Config where
  mediaType : String := ""
  labels : Option (List (String × String)) := none
  compressor : Bool := false
  reference : String := ""
deriving DecidableEq

/-- The zero `diff.Config` the option fold starts from. -/
def config0 : Config := {}

/-- `ocispec.Descriptor` restricted to the fields Compare populates. -/
structure Descriptor where
  mediaType : String
  digest : String
  size : Nat
deriving DecidableEq

/-- `emptyDesc` (differ.go line 44): the zero-valued descriptor. -/
def emptyDesc : Descriptor := { mediaType := "", digest := "", size := 0 }

/-- Lookup in a Go map modelled as an association list. -/
def mapLookup : List (String × String) → String → Option String
  | [], _ => none
  | p :: rest, k => if p.1 = k then some p.2 else mapLookup rest k

/-- Go map assignment `m[k] = v`: overwrite any existing entry. -/
def mapInsert (m : List (String × String)) (k v : String) : List (String × String) :=
  m.filter (fun p => !(p.1 == k)) ++ [(k, v)]

/-- Go map read `m[k]` with the zero-value default for a missing key. -/
def goGet (m : List (String × String)) (k : String) : String :=
  (mapLookup m k).getD ""

/-- `content.Info` restricted to the fields Compare reads: digest, size and
labels (nil-able map). -/
structure BlobInfo where
  digest : String
  size : Nat
  labels : Option (List (String × String))
deriving DecidableEq

/-- The content store's committed blobs, keyed by digest. -/
structure Store where
  blobs : List (String × BlobInfo)
deriving DecidableEq

/-- Digest-keyed lookup among committed blobs. -/
def lookupBlob : List (String × BlobInfo) → String → Option BlobInfo
  | [], _ => none
  | p :: rest, d => if p.1 = d then some p.2 else lookupBlob rest d

/-- The value of label `k` on the blob stored under digest `d`, if any. -/
def getLabel (st : Store) (d k : String) : Option String :=
  match lookupBlob st.blobs d with
  | some b => mapLookup (b.labels.getD []) k
  | none => none

/-- `store.Update(ctx, info, "labels."+k)`: copy label `k` from the supplied
info record onto the stored blob with the same digest. -/
def storeUpdateLabel (st : Store) (info : BlobInfo) (k : String) : Store :=
  ⟨st.blobs.map (fun p =>
    if p.1 = info.digest then
      (p.1, { p.2 with labels := some (mapInsert (p.2.labels.getD []) k (goGet (info.labels.getD []) k)) })
    else p)⟩

/-- Store well-formedness: every blob is keyed by its own digest. -/
def storeWF (st : Store) : Prop := ∀ p ∈ st.blobs, p.2.digest = p.1

/-- Observable interactions of one Compare run with its collaborators. -/
inductive Event where
  | mountLower
  | mountUpper
  | writerOpen (ref : String) (mediaType : String)
  | truncate
  | close
  | abort (ref : String)
  | logWarn (ref : String)
  | commit (dgst : String) (labels : Option (List (String × String)))
  | infoCall (dgst : String)
  | update (dgst : String) (labels : List (String × String)) (fieldpath : String)
deriving DecidableEq

/-- Environment: results of the external collaborators for one run.  Each
`Option GoError` field injects a failure at the corresponding call site;
`writeDiffRes` is the raw diff byte stream produced by `archive.WriteDiff`
(or its failure); `compress` is the byte transformation of the compressor in
use; `dgstFn` is the SHA-256 digest of a byte sequence, used both by the
store writer and by the side accumulator; `freshRef` is the value
`uniqueRef()` returns in this run. -/
structure Env where
  mountLowerErr : Option GoError
  mountUpperErr : Option GoError
  writerErr : Option GoError
  truncateErr : Option GoError
  customNewErr : Option GoError
  gzipNewErr : Option GoError
  writeDiffRes : Except GoError (List Nat)
  commitErr : Option GoError
  infoErr : Option GoError
  updateErr : Option GoError
  abortErr : Option GoError
  compress : List Nat → List Nat
  dgstFn : List Nat → String
  freshRef : String

/-- The option-application loop (differ.go lines 82-87). -/
def applyOpts : Config → List (Config → Except GoError Config) → Except GoError Config
  | c, [] => Except.ok c
  | c, o :: rest =>
    match o c with
    | Except.error e => Except.error e
    | Except.ok c2 => applyOpts c2 rest

/-- Config validation and media-type defaulting (differ.go lines 94-112);
returns the effective config and the `isCompressed` flag. -/
def resolveConfig (config : Config) : Except GoError (Config × Bool) :=
  if config.compressor then
    if config.mediaType = "" then
      Except.error (GoError.errNew ("media type must be explicitly specified when using custom compressor"))
    else Except.ok (config, true)
  else
    let config := if config.mediaType = "" then { config with mediaType := MediaTypeImageLayerGzip } else config
    if config.mediaType = MediaTypeImageLayer then Except.ok (config, false)
    else if config.mediaType = MediaTypeImageLayerGzip then Except.ok (config, true)
    else Except.error (GoError.wrapf GoError.errNotImplemented ("unsupported diff media type: " ++ config.mediaType))

/-- The deferred cleanup (differ.go lines 135-144): close the writer and,
for a freshly generated reference, abort the staged upload, logging an abort
failure instead of propagating it. -/
def cleanupEvents (env : Env) (newReference : Bool) (ref : String) : List Event :=
  [Event.close] ++
    (if newReference then
      [Event.abort ref] ++ (match env.abortErr with
        | some _ => [Event.logWarn ref]
        | none => [])
    else [])

instance {α β : Type} [DecidableEq α] [DecidableEq β] : DecidableEq (Except α β) := fun x y =>
  match x, y with
  | Except.error a, Except.error b =>
    if h : a = b then isTrue (by rw [h]) else isFalse (fun he => h (Except.error.inj he))
  | Except.ok a, Except.ok b =>
    if h : a = b then isTrue (by rw [h]) else isFalse (fun he => h (Except.ok.inj he))
  | Except.error _, Except.ok _ => isFalse (fun he => Except.noConfusion he)
  | Except.ok _, Except.error _ => isFalse (fun he => Except.noConfusion he)

/-- Result of one phase of the inner closure: Go return value, store state
after the phase, and the events the phase emitted. -/
structure StepOut where
  res : Except GoError Descriptor
  store : Store
  events : List Event
deriving DecidableEq

/-- Post-commit label reconciliation and descriptor construction
(differ.go lines 194-214). -/
def reconcilePhase (env : Env) (store1 : Store) (config : Config) (dgst : String)
    (evs : List Event) : StepOut :=
  let evs := evs ++ [Event.infoCall dgst]
  let infoRes : Except GoError BlobInfo :=
    match env.infoErr with
    | some e => Except.error e
    | none =>
      match lookupBlob store1.blobs dgst with
      | some b => Except.ok b
      | none => Except.error (GoError.errNew ("content not found"))
  match infoRes with
  | Except.error e =>
    { res := Except.error (GoError.wrapf e ("failed to get info from content store")),
      store := store1, events := evs }
  | Except.ok info =>
    let infoLabels := info.labels.getD []
    match mapLookup infoLabels uncompressed with
    | some _ =>
      { res := Except.ok { mediaType := config.mediaType, digest := info.digest, size := info.size },
        store := store1, events := evs }
    | none =>
      let info2 := { info with
        labels := some (mapInsert infoLabels uncompressed (goGet (config.labels.getD []) uncompressed)) }
      let evs := evs ++ [Event.update info2.digest (info2.labels.getD []) ("labels." ++ uncompressed)]
      match env.updateErr with
      | some e =>
        { res := Except.error (GoError.wrapf e ("error setting uncompressed label")),
          store := store1, events := evs }
      | none =>
        { res := Except.ok { mediaType := config.mediaType, digest := info2.digest, size := info2.size },
          store := storeUpdateLabel store1 info2 uncompressed, events := evs }

/-- The commit step (differ.go lines 181-192): commit the written bytes under
their digest; an already-exists outcome is discarded and the run proceeds to
reconciliation against the unchanged store. -/
def commitPhase (env : Env) (store0 : Store) (config : Config) (newReference : Bool)
    (written : List Nat) : StepOut :=
  let commitLabels := config.labels
  let dgst := env.dgstFn written
  let commitEv := [Event.commit dgst commitLabels]
  let commitRes : Except GoError Store :=
    match env.commitErr with
    | some e => Except.error e
    | none =>
      match lookupBlob store0.blobs dgst with
      | some _ => Except.error GoError.errAlreadyExists
      | none => Except.ok ⟨(dgst, { digest := dgst, size := written.length, labels := commitLabels }) :: store0.blobs⟩
  match commitRes with
  | Except.error e =>
    if e.isAlreadyExists then reconcilePhase env store0 config dgst commitEv
    else
      { res := Except.error (GoError.wrapf e ("failed to commit")), store := store0,
        events := commitEv ++ cleanupEvents env newReference config.reference }
  | Except.ok store1 => reconcilePhase env store1 config dgst commitEv

/-- The writing step (differ.go lines 151-179): on the compressed path the
raw diff bytes feed both the compressor (whose output reaches the store
writer) and the side digest accumulator, and the uncompressed-digest label is
recorded in the config; on the uncompressed path the raw bytes go straight to
the writer. -/
def writePhase (env : Env) (store0 : Store) (config : Config) (newReference : Bool)
    (isCompressed : Bool) : StepOut :=
  let cleanup := cleanupEvents env newReference config.reference
  if isCompressed then
    match (if config.compressor then env.customNewErr else env.gzipNewErr) with
    | some e =>
      { res := Except.error (GoError.wrapf e ("failed to get compressed stream")),
        store := store0, events := cleanup }
    | none =>
      match env.writeDiffRes with
      | Except.error e =>
        { res := Except.error (GoError.wrapf e ("failed to write compressed diff")),
          store := store0, events := cleanup }
      | Except.ok raw =>
        let config := { config with
          labels := some (mapInsert (config.labels.getD []) uncompressed (env.dgstFn raw)) }
        commitPhase env store0 config newReference (env.compress raw)
  else
    match env.writeDiffRes with
    | Except.error e =>
      { res := Except.error (GoError.wrapf e ("failed to write diff")),
        store := store0, events := cleanup }
    | Except.ok raw => commitPhase env store0 config newReference raw

/-- Everything after the writer opened (differ.go lines 145-214), starting
with the truncation of caller-supplied references. -/
def afterOpen (env : Env) (store0 : Store) (config : Config) (newReference : Bool)
    (isCompressed : Bool) : StepOut :=
  if newReference then writePhase env store0 config newReference isCompressed
  else
    match env.truncateErr with
    | some e =>
      { res := Except.error e, store := store0,
        events := [Event.truncate] ++ cleanupEvents env newReference config.reference }
    | none =>
      let r := writePhase env store0 config newReference isCompressed
      { res := r.res, store := r.store, events := [Event.truncate] ++ r.events }

/-- The nested mount scopes and writer opening (differ.go lines 114-144). -/
def compareMounted (env : Env) (store0 : Store) (config : Config) (isCompressed : Bool) : StepOut :=
  match env.mountLowerErr with
  | some e => { res := Except.error e, store := store0, events := [Event.mountLower] }
  | none =>
    match env.mountUpperErr with
    | some e => { res := Except.error e, store := store0, events := [Event.mountLower, Event.mountUpper] }
    | none =>
      let newReference := config.reference == ""
      let config := if newReference then { config with reference := env.freshRef } else config
      let base := [Event.mountLower, Event.mountUpper, Event.writerOpen config.reference config.mediaType]
      match env.writerErr with
      | some e =>
        { res := Except.error (GoError.wrapf e ("failed to open writer")), store := store0, events := base }
      | none =>
        let r := afterOpen env store0 config newReference isCompressed
        { res := r.res, store := r.store, events := base ++ r.events }

/-- The observable outcome of one `Compare` call: returned descriptor and
error, the content store afterward, the event trace, and the upper mount set
after the in-place overlay rewrite. -/
structure CompareOut where
  desc : Descriptor
  err : Option GoError
  store : Store
  events : List Event
  upperMounts : List Mount
deriving DecidableEq

/-- `walkingDiff.Compare` (differ.go lines 81-221). -/
def Compare (env : Env) (store0 : Store) (lower upper : List Mount)
    (opts : List (Config → Except GoError Config)) : CompareOut :=
  match applyOpts config0 opts with
  | Except.error e =>
    { desc := emptyDesc, err := some e, store := store0, events := [], upperMounts := upper }
  | Except.ok config =>
    let upper2 := rewriteUpper upper
    match resolveConfig config with
    | Except.error e =>
      { desc := emptyDesc, err := some e, store := store0, events := [], upperMounts := upper2 }
    | Except.ok rc =>
      let r := compareMounted env store0 rc.1 rc.2
      match r.res with
      | Except.error e =>
        { desc := emptyDesc, err := some e, store := r.store, events := r.events, upperMounts := upper2 }
      | Except.ok d =>
        { desc := d, err := none, store := r.store, events := r.events, upperMounts := upper2 }

/-! ## Lemmas about the overlay option rewrite -/

/-- The option strings `readonlyOverlay` never emits: those carrying an
`upperdir=` or `workdir=` marker. -/
def cleanOpt (o : String) : Prop :=
  goHasPfx o ("upperdir=") = false ∧ goHasPfx o ("workdir=") = false

theorem cleanOpt_lowerdir (s : String) : cleanOpt ("lowerdir=" ++ s) := by
  have hu : "upperdir=".data = ['u', 'p', 'p', 'e', 'r', 'd', 'i', 'r', '='] := rfl
  have hw : "workdir=".data = ['w', 'o', 'r', 'k', 'd', 'i', 'r', '='] := rfl
  have hl : "lowerdir=".data = ['l', 'o', 'w', 'e', 'r', 'd', 'i', 'r', '='] := rfl
  constructor <;>
    simp [goHasPfx, String.data_append, hu, hw, hl, hasPfx]

theorem roPass_preserves_clean {acc : String × List String} {x : String}
    (h : ∀ o ∈ acc.2, cleanOpt o) : ∀ o ∈ (roPass acc x).2, cleanOpt o := by
  unfold roPass
  split
  · exact h
  · split
    · exact h
    · intro o ho
      rcases List.mem_append.mp ho with h1 | h1
      · exact h o h1
      · rcases List.mem_singleton.mp h1 with rfl
        rename_i hup hwk
        exact ⟨Bool.not_eq_true _ ▸ hup, Bool.not_eq_true _ ▸ hwk⟩

theorem foldl_roPass_clean (l : List String) :
    ∀ acc : String × List String, (∀ o ∈ acc.2, cleanOpt o) →
      ∀ o ∈ (l.foldl roPass acc).2, cleanOpt o := by
  induction l with
  | nil => intro acc h; exact h
  | cons x xs ih =>
    intro acc h
    exact ih (roPass acc x) (roPass_preserves_clean h)

theorem foldl_roPass_of_clean (l : List String) (hl : ∀ o ∈ l, cleanOpt o) :
    ∀ acc : String × List String, l.foldl roPass acc = (acc.1, acc.2 ++ l) := by
  induction l with
  | nil => intro acc; simp
  | cons x xs ih =>
    intro acc
    have hx : cleanOpt x := hl x (List.mem_cons_self x xs)
    have hxs : ∀ o ∈ xs, cleanOpt o := fun o ho => hl o (List.mem_cons_of_mem x ho)
    have hstep : roPass acc x = (acc.1, acc.2 ++ [x]) := by
      unfold roPass
      rw [if_neg, if_neg]
      · simp [hx.2]
      · simp [hx.1]
    simp only [List.foldl_cons, hstep, ih hxs]
    simp

theorem readonlyOverlay_clean (opt : List String) :
    ∀ o ∈ readonlyOverlay opt, cleanOpt o := by
  have hfold := foldl_roPass_clean opt ("", []) (by simp)
  simp only [readonlyOverlay]
  split
  · intro o ho
    rcases List.mem_map.mp ho with ⟨a, ha, rfl⟩
    split
    · exact cleanOpt_lowerdir _
    · exact hfold a ha
  · exact hfold

/-- C10: the output of `readonlyOverlay` never contains an `upperdir=` or
`workdir=` entry, and the rewrite is idempotent on every option list. -/
theorem readonlyOverlay_idem (opt : List String) :
    (∀ o ∈ readonlyOverlay opt,
      goHasPfx o ("upperdir=") = false ∧ goHasPfx o ("workdir=") = false) ∧
    readonlyOverlay (readonlyOverlay opt) = readonlyOverlay opt := by
  refine ⟨readonlyOverlay_clean opt, ?_⟩
  have hclean := readonlyOverlay_clean opt
  generalize hL : readonlyOverlay opt = L at hclean ⊢
  have hfold := foldl_roPass_of_clean L hclean ("", [])
  simp only [readonlyOverlay, hfold]
  simp

/-! ## Concrete artifacts for witnesses and counterexamples -/

/-- SHA-256 stand-in for concrete runs: a tag recording the input length. -/
def dgstA : List Nat → String := fun b => "sha256:" ++ String.mk (b.map (fun _ => 'x'))

/-- An environment in which every collaborator call succeeds; the diff stream
is `[1, 2, 3]` and the compressor prepends one byte. -/
def envA : Env :=
  { mountLowerErr := none, mountUpperErr := none, writerErr := none, truncateErr := none,
    customNewErr := none, gzipNewErr := none, writeDiffRes := Except.ok [1, 2, 3],
    commitErr := none, infoErr := none, updateErr := none, abortErr := none,
    compress := fun b => 0 :: b, dgstFn := dgstA, freshRef := "ref-1" }

/-- An overlay mount used by concrete runs. -/
def mountA : Mount :=
  { type := "overlay", source := "src", options := ["upperdir=/a", "lowerdir=/b:/c", "workdir=/d"] }

/-- C5: the overlay rewrite on the documented example, the fact that
non-overlay mounts pass through `rewriteMount` unchanged, and the fact that
`Compare` rewrites the upper mount set exactly by that per-mount rule. -/
theorem overlay_rewrite_spec :
    readonlyOverlay ["upperdir=/a", "lowerdir=/b:/c", "workdir=/d"] = ["lowerdir=/a:/b:/c"] ∧
    (∀ m : Mount, m.type ≠ "overlay" → rewriteMount m = m) ∧
    (∀ (env : Env) (store0 : Store) (lower upper : List Mount)
        (opts : List (Config → Except GoError Config)) (c : Config),
      applyOpts config0 opts = Except.ok c →
      (Compare env store0 lower upper opts).upperMounts = rewriteUpper upper) := by
  refine ⟨by decide, ?_, ?_⟩
  · intro m hm
    simp [rewriteMount, hm]
  · intro env store0 lower upper opts c hc
    simp only [Compare, hc]
    cases hr : resolveConfig c with
    | error e => simp
    | ok rc =>
      cases hres : (compareMounted env store0 rc.1 rc.2).res <;> simp [hres]

/-- Witness for C5's theorem: instantiating its quantified part on a concrete
run with one overlay and one bind mount. -/
theorem overlay_rewrite_spec_witness :
    (Compare envA ⟨[]⟩ [] [mountA, { type := "bind", source := "b", options := ["ro"] }] []).upperMounts =
      rewriteUpper [mountA, { type := "bind", source := "b", options := ["ro"] }] :=
  overlay_rewrite_spec.2.2 envA ⟨[]⟩ []
    [mountA, { type := "bind", source := "b", options := ["ro"] }] [] config0 rfl

/-- C6: a custom compressor together with an empty media type makes Compare
fail with the configuration error, before any mount or store interaction. -/
theorem compressor_requires_media_type
    (env : Env) (store0 : Store) (lower upper : List Mount)
    (opts : List (Config → Except GoError Config)) (c : Config)
    (hc : applyOpts config0 opts = Except.ok c)
    (hcomp : c.compressor = true) (hmt : c.mediaType = "") :
    (Compare env store0 lower upper opts).err =
      some (GoError.errNew ("media type must be explicitly specified when using custom compressor")) ∧
    (Compare env store0 lower upper opts).desc = emptyDesc ∧
    (Compare env store0 lower upper opts).events = [] := by
  have hr : resolveConfig c =
      Except.error (GoError.errNew ("media type must be explicitly specified when using custom compressor")) := by
    simp [resolveConfig, hcomp, hmt]
  simp [Compare, hc, hr]

/-- Witness for C6's theorem on a concrete option list. -/
theorem compressor_requires_media_type_witness :
    (Compare envA ⟨[]⟩ [] [] [fun c => Except.ok { c with compressor := true }]).err =
      some (GoError.errNew ("media type must be explicitly specified when using custom compressor")) ∧
    (Compare envA ⟨[]⟩ [] [] [fun c => Except.ok { c with compressor := true }]).desc = emptyDesc ∧
    (Compare envA ⟨[]⟩ [] [] [fun c => Except.ok { c with compressor := true }]).events = [] :=
  compressor_requires_media_type envA ⟨[]⟩ [] [] _
    { mediaType := "", labels := none, compressor := true, reference := "" } rfl rfl rfl

/-! ## Shape lemmas about the phases of the inner closure -/

theorem cleanup_close (env : Env) (nr : Bool) (ref : String) :
    Event.close ∈ cleanupEvents env nr ref := by
  rcases h : env.abortErr with _ | e <;> rcases nr <;> simp [cleanupEvents, h]

theorem cleanup_abort_fresh (env : Env) (ref : String) :
    Event.abort ref ∈ cleanupEvents env true ref := by
  rcases h : env.abortErr with _ | e <;> simp [cleanupEvents, h]

theorem cleanup_caller_no_abort (env : Env) (ref r : String) :
    Event.abort r ∉ cleanupEvents env false ref := by
  rcases h : env.abortErr with _ | e <;> simp [cleanupEvents, h]

theorem cleanup_logWarn (env : Env) (ref : String) (h : env.abortErr ≠ none) :
    Event.logWarn ref ∈ cleanupEvents env true ref := by
  rcases he : env.abortErr with _ | e
  · exact absurd he h
  · simp [cleanupEvents, he]

theorem cleanup_no_truncate (env : Env) (nr : Bool) (ref : String) :
    Event.truncate ∉ cleanupEvents env nr ref := by
  rcases h : env.abortErr with _ | e <;> rcases nr <;> simp [cleanupEvents, h]

theorem cleanup_no_infoCall (env : Env) (nr : Bool) (ref d : String) :
    Event.infoCall d ∉ cleanupEvents env nr ref := by
  rcases h : env.abortErr with _ | e <;> rcases nr <;> simp [cleanupEvents, h]

theorem reconcile_events_shape (env : Env) (st : Store) (cfg : Config) (dgst : String)
    (evs : List Event) :
    ∃ tail, (reconcilePhase env st cfg dgst evs).events = evs ++ Event.infoCall dgst :: tail ∧
      ∀ ev ∈ tail, ∃ a b c, ev = Event.update a b c := by
  unfold reconcilePhase
  rcases hi : env.infoErr with _ | e
  · rcases hb : lookupBlob st.blobs dgst with _ | b
    · exact ⟨[], by simp, by simp⟩
    · rcases hm : mapLookup (b.labels.getD []) uncompressed with _ | v
      · rcases hu : env.updateErr with _ | e
        all_goals
          exact ⟨[Event.update b.digest
              (mapInsert (b.labels.getD []) uncompressed (goGet (cfg.labels.getD []) uncompressed))
              ("labels." ++ uncompressed)],
            by simp [hm, hu], by simp⟩
      · exact ⟨[], by simp [hm], by simp⟩
  · exact ⟨[], by simp, by simp⟩

theorem reconcile_infoCall_mem (env : Env) (st : Store) (cfg : Config) (dgst : String)
    (evs : List Event) :
    Event.infoCall dgst ∈ (reconcilePhase env st cfg dgst evs).events := by
  obtain ⟨tail, hsh, -⟩ := reconcile_events_shape env st cfg dgst evs
  simp [hsh]

theorem commitPhase_shape (env : Env) (st : Store) (cfg : Config) (nr : Bool)
    (written : List Nat) :
    ((∃ e, (commitPhase env st cfg nr written).res =
        Except.error (GoError.wrapf e ("failed to commit")) ∧ e.isAlreadyExists = false) ∧
      (commitPhase env st cfg nr written).events =
        Event.commit (env.dgstFn written) cfg.labels :: cleanupEvents env nr cfg.reference ∧
      (commitPhase env st cfg nr written).store = st) ∨
    (∃ st2, commitPhase env st cfg nr written =
      reconcilePhase env st2 cfg (env.dgstFn written)
        [Event.commit (env.dgstFn written) cfg.labels]) := by
  unfold commitPhase
  rcases hc : env.commitErr with _ | e
  · rcases hb : lookupBlob st.blobs (env.dgstFn written) with _ | b
    · right
      exact ⟨⟨(env.dgstFn written,
          { digest := env.dgstFn written, size := written.length, labels := cfg.labels }) :: st.blobs⟩,
        by simp [hb]⟩
    · right
      exact ⟨st, by simp [hb, GoError.isAlreadyExists]⟩
  · by_cases hae : e.isAlreadyExists = true
    · right
      exact ⟨st, by simp [hae]⟩
    · left
      refine ⟨⟨e, by simp [hae], by simpa using hae⟩, by simp [hae], by simp [hae]⟩

theorem writePhase_shape (env : Env) (st : Store) (cfg : Config) (nr isC : Bool) :
    ((∃ e, (writePhase env st cfg nr isC).res = Except.error e) ∧
      (writePhase env st cfg nr isC).events = cleanupEvents env nr cfg.reference ∧
      (writePhase env st cfg nr isC).store = st) ∨
    (∃ cfg2 written, cfg2.reference = cfg.reference ∧
      writePhase env st cfg nr isC = commitPhase env st cfg2 nr written) := by
  unfold writePhase
  rcases isC
  · rcases hw : env.writeDiffRes with e | raw
    · left
      exact ⟨⟨GoError.wrapf e ("failed to write diff"), by simp [hw]⟩, by simp [hw], by simp [hw]⟩
    · right
      exact ⟨cfg, raw, rfl, by simp [hw]⟩
  · rcases hcc : cfg.compressor
    · rcases hg : env.gzipNewErr with _ | e
      · rcases hw : env.writeDiffRes with e | raw
        · left
          exact ⟨⟨GoError.wrapf e ("failed to write compressed diff"), by simp [hcc, hg, hw]⟩,
            by simp [hcc, hg, hw], by simp [hcc, hg, hw]⟩
        · right
          exact ⟨{ cfg with
              labels := some (mapInsert (cfg.labels.getD []) uncompressed (env.dgstFn raw)) },
            env.compress raw, rfl, by simp [hcc, hg, hw]⟩
      · left
        exact ⟨⟨GoError.wrapf e ("failed to get compressed stream"), by simp [hcc, hg]⟩,
          by simp [hcc, hg], by simp [hcc, hg]⟩
    · rcases hcu : env.customNewErr with _ | e
      · rcases hw : env.writeDiffRes with e | raw
        · left
          exact ⟨⟨GoError.wrapf e ("failed to write compressed diff"), by simp [hcc, hcu, hw]⟩,
            by simp [hcc, hcu, hw], by simp [hcc, hcu, hw]⟩
        · right
          exact ⟨{ cfg with
              labels := some (mapInsert (cfg.labels.getD []) uncompressed (env.dgstFn raw)) },
            env.compress raw, rfl, by simp [hcc, hcu, hw]⟩
      · left
        exact ⟨⟨GoError.wrapf e ("failed to get compressed stream"), by simp [hcc, hcu]⟩,
          by simp [hcc, hcu], by simp [hcc, hcu]⟩

theorem afterOpen_shape (env : Env) (st : Store) (cfg : Config) (nr isC : Bool) :
    (nr = false ∧ (∃ e, env.truncateErr = some e ∧ (afterOpen env st cfg nr isC).res = Except.error e) ∧
      (afterOpen env st cfg nr isC).events = Event.truncate :: cleanupEvents env nr cfg.reference ∧
      (afterOpen env st cfg nr isC).store = st) ∨
    ((afterOpen env st cfg nr isC).res = (writePhase env st cfg nr isC).res ∧
      (afterOpen env st cfg nr isC).store = (writePhase env st cfg nr isC).store ∧
      (afterOpen env st cfg nr isC).events =
        (if nr then [] else [Event.truncate]) ++ (writePhase env st cfg nr isC).events) := by
  unfold afterOpen
  rcases nr
  · rcases ht : env.truncateErr with _ | e
    · right
      simp [ht]
    · left
      exact ⟨rfl, ⟨e, rfl, by simp [ht]⟩, by simp [ht], by simp [ht]⟩
  · right
    simp

theorem truncate_not_in_commitPhase (env : Env) (st : Store) (cfg : Config) (nr : Bool)
    (written : List Nat) :
    Event.truncate ∉ (commitPhase env st cfg nr written).events := by
  rcases commitPhase_shape env st cfg nr written with ⟨-, hev, -⟩ | ⟨st2, heq⟩
  · rw [hev]
    intro h
    rcases List.mem_cons.mp h with h | h
    · exact Event.noConfusion h
    · exact cleanup_no_truncate env nr cfg.reference h
  · rw [heq]
    obtain ⟨tail, hsh, htail⟩ := reconcile_events_shape env st2 cfg (env.dgstFn written)
      [Event.commit (env.dgstFn written) cfg.labels]
    rw [hsh]
    intro h
    simp at h
    obtain ⟨a, b, c, habc⟩ := htail _ h
    exact Event.noConfusion habc

theorem truncate_not_in_writePhase (env : Env) (st : Store) (cfg : Config) (nr isC : Bool) :
    Event.truncate ∉ (writePhase env st cfg nr isC).events := by
  rcases writePhase_shape env st cfg nr isC with ⟨-, hev, -⟩ | ⟨cfg2, written, -, heq⟩
  · rw [hev]
    exact cleanup_no_truncate env nr cfg.reference
  · rw [heq]
    exact truncate_not_in_commitPhase env st cfg2 nr written

/-- C8: after the writer opened successfully, the writer is truncated to zero
length iff the reference was caller-supplied; a freshly generated reference
is never truncated. -/
theorem truncate_iff_caller_ref
    (env : Env) (store0 : Store) (lower upper : List Mount)
    (opts : List (Config → Except GoError Config)) (c : Config) (rc : Config × Bool)
    (hc : applyOpts config0 opts = Except.ok c)
    (hr : resolveConfig c = Except.ok rc)
    (hml : env.mountLowerErr = none) (hmu : env.mountUpperErr = none)
    (hw : env.writerErr = none) :
    (Event.truncate ∈ (Compare env store0 lower upper opts).events ↔ rc.1.reference ≠ "") := by
  have hcm : (Compare env store0 lower upper opts).events =
      (compareMounted env store0 rc.1 rc.2).events := by
    simp only [Compare, hc, hr]
    cases hres : (compareMounted env store0 rc.1 rc.2).res <;> simp [hres]
  rw [hcm]
  by_cases href : rc.1.reference = ""
  · rcases afterOpen_shape env store0 { rc.1 with reference := env.freshRef } true rc.2 with
      ⟨hfalse, -, -, -⟩ | ⟨-, -, hev⟩
    · exact absurd hfalse (by simp)
    · simp only [compareMounted, hml, hmu, hw, href]
      simp [hev, truncate_not_in_writePhase, href]
  · have hbeq : (rc.1.reference == "") = false := by
      simp [href]
    simp only [compareMounted, hml, hmu, hw, hbeq]
    rcases afterOpen_shape env store0 rc.1 false rc.2 with ⟨-, -, hev, -⟩ | ⟨-, -, hev⟩ <;>
      simp [hev, href]

/-- Witness for C8's theorem: a caller-supplied reference on an otherwise
successful run is truncated. -/
theorem truncate_iff_caller_ref_witness :
    Event.truncate ∈
      (Compare envA ⟨[]⟩ [] [] [fun c => Except.ok { c with reference := "r9" }]).events ↔
    ({ mediaType := MediaTypeImageLayerGzip, labels := none, compressor := false,
        reference := "r9" } : Config).reference ≠ "" :=
  truncate_iff_caller_ref envA ⟨[]⟩ [] [] [fun c => Except.ok { c with reference := "r9" }]
    { mediaType := "", labels := none, compressor := false, reference := "r9" }
    ({ mediaType := MediaTypeImageLayerGzip, labels := none, compressor := false,
        reference := "r9" }, true) rfl rfl rfl rfl rfl

/-- C9: whenever Compare returns a non-nil error, the returned descriptor is
exactly the zero-valued descriptor. -/
theorem error_returns_empty_desc (env : Env) (store0 : Store) (lower upper : List Mount)
    (opts : List (Config → Except GoError Config))
    (h : (Compare env store0 lower upper opts).err ≠ none) :
    (Compare env store0 lower upper opts).desc = emptyDesc := by
  rcases ha : applyOpts config0 opts with e | c
  · simp [Compare, ha]
  · rcases hr : resolveConfig c with e | rc
    · simp [Compare, ha, hr]
    · rcases hres : (compareMounted env store0 rc.1 rc.2).res with e | d
      · simp [Compare, ha, hr, hres]
      · simp [Compare, ha, hr, hres] at h

/-- Witness for C9's theorem at a concrete failing run. -/
theorem error_returns_empty_desc_witness :
    (Compare envA ⟨[]⟩ [] [] [fun _ => Except.error (GoError.errNew ("boom"))]).desc = emptyDesc :=
  error_returns_empty_desc envA ⟨[]⟩ [] [] [fun _ => Except.error (GoError.errNew ("boom"))]
    (by decide)

/-- C7: with no custom compressor, an empty media type defaults to the
compressed (gzip) layer type with compression enabled, the uncompressed layer
type disables compression, the gzip layer type enables it, and any other
media type fails with the not-implemented error before any mount or store
operation. -/
theorem media_type_resolution (c : Config) (hcomp : c.compressor = false) :
    (c.mediaType = "" →
      resolveConfig c = Except.ok ({ c with mediaType := MediaTypeImageLayerGzip }, true)) ∧
    (c.mediaType = MediaTypeImageLayer → resolveConfig c = Except.ok (c, false)) ∧
    (c.mediaType = MediaTypeImageLayerGzip → resolveConfig c = Except.ok (c, true)) ∧
    (c.mediaType ≠ "" → c.mediaType ≠ MediaTypeImageLayer → c.mediaType ≠ MediaTypeImageLayerGzip →
      resolveConfig c =
        Except.error (GoError.wrapf GoError.errNotImplemented
          ("unsupported diff media type: " ++ c.mediaType)) ∧
      (∀ (env : Env) (store0 : Store) (lower upper : List Mount)
          (opts : List (Config → Except GoError Config)),
        applyOpts config0 opts = Except.ok c →
        (Compare env store0 lower upper opts).err =
          some (GoError.wrapf GoError.errNotImplemented
            ("unsupported diff media type: " ++ c.mediaType)) ∧
        (Compare env store0 lower upper opts).events = [])) := by
  have hlg : MediaTypeImageLayer ≠ MediaTypeImageLayerGzip := by decide
  have hle : MediaTypeImageLayer ≠ "" := by decide
  have hge : MediaTypeImageLayerGzip ≠ "" := by decide
  refine ⟨?_, ?_, ?_, ?_⟩
  · intro h
    simp [resolveConfig, hcomp, h, hge, hlg.symm]
  · intro h
    simp [resolveConfig, hcomp, h, hle]
  · intro h
    simp [resolveConfig, hcomp, h, hge, hlg.symm]
  · intro h1 h2 h3
    have hres : resolveConfig c =
        Except.error (GoError.wrapf GoError.errNotImplemented
          ("unsupported diff media type: " ++ c.mediaType)) := by
      simp [resolveConfig, hcomp, h1, h2, h3]
    refine ⟨hres, ?_⟩
    intro env store0 lower upper opts hc
    simp [Compare, hc, hres]

/-- Witness for C7's theorem: an unrecognized media type fails before any
mount or store interaction. -/
theorem media_type_resolution_witness :
    (Compare envA ⟨[]⟩ [] [] [fun c => Except.ok { c with mediaType := "weird" }]).err =
      some (GoError.wrapf GoError.errNotImplemented
        ("unsupported diff media type: " ++ (Config.mk "weird" none false "").mediaType)) ∧
    (Compare envA ⟨[]⟩ [] [] [fun c => Except.ok { c with mediaType := "weird" }]).events = [] :=
  ((media_type_resolution (Config.mk "weird" none false "")
      rfl).2.2.2 (by decide) (by decide) (by decide)).2
    envA ⟨[]⟩ [] [] [fun c => Except.ok { c with mediaType := "weird" }] rfl

/-- The config after reference resolution (differ.go lines 117-121): an empty
caller reference is replaced by the freshly generated one. -/
def cfgR (env : Env) (cfg : Config) : Config :=
  if cfg.reference == "" then { cfg with reference := env.freshRef } else cfg

/-- The config after the writing step: on the compressed path the
uncompressed-digest label (side accumulator over the raw bytes) has been
recorded (differ.go lines 171-174). -/
def cfgW (env : Env) (cfg : Config) (isC : Bool) (raw : List Nat) : Config :=
  if isC then
    { cfgR env cfg with
      labels := some (mapInsert ((cfgR env cfg).labels.getD []) uncompressed (env.dgstFn raw)) }
  else cfgR env cfg

theorem cfgR_mediaType (env : Env) (cfg : Config) : (cfgR env cfg).mediaType = cfg.mediaType := by
  rcases h : cfg.reference == "" <;> simp [cfgR, h]

theorem cfgR_labels (env : Env) (cfg : Config) : (cfgR env cfg).labels = cfg.labels := by
  rcases h : cfg.reference == "" <;> simp [cfgR, h]

theorem cfgW_mediaType (env : Env) (cfg : Config) (isC : Bool) (raw : List Nat) :
    (cfgW env cfg isC raw).mediaType = cfg.mediaType := by
  rcases isC <;> simp [cfgW, cfgR_mediaType]

theorem cfgW_labels (env : Env) (cfg : Config) (isC : Bool) (raw : List Nat) :
    (cfgW env cfg isC raw).labels =
      if isC then some (mapInsert (cfg.labels.getD []) uncompressed (env.dgstFn raw))
      else cfg.labels := by
  rcases isC <;> simp [cfgW, cfgR_labels]

/-- Reduction of `compareMounted` to `commitPhase` when mounting, writer
opening, truncation, compressor construction and the diff stream all
succeed.  The store writer received the compressed bytes on the compressed
path and the raw bytes otherwise. -/
theorem compareMounted_eq (env : Env) (store0 : Store) (cfg : Config) (isC : Bool)
    (hml : env.mountLowerErr = none) (hmu : env.mountUpperErr = none)
    (hw : env.writerErr = none) (ht : env.truncateErr = none)
    (hg : env.gzipNewErr = none) (hcu : env.customNewErr = none)
    (raw : List Nat) (hwd : env.writeDiffRes = Except.ok raw) :
    compareMounted env store0 cfg isC =
      { res := (commitPhase env store0 (cfgW env cfg isC raw) (cfg.reference == "")
          (if isC then env.compress raw else raw)).res,
        store := (commitPhase env store0 (cfgW env cfg isC raw) (cfg.reference == "")
          (if isC then env.compress raw else raw)).store,
        events := [Event.mountLower, Event.mountUpper,
            Event.writerOpen (cfgR env cfg).reference cfg.mediaType] ++
          (if cfg.reference == "" then [] else [Event.truncate]) ++
          (commitPhase env store0 (cfgW env cfg isC raw) (cfg.reference == "")
            (if isC then env.compress raw else raw)).events } := by
  rcases hnr : cfg.reference == "" <;> rcases isC <;> rcases hcc : cfg.compressor <;>
    simp [compareMounted, hml, hmu, hw, hnr, afterOpen, ht, writePhase, hg, hcu, hwd, hcc,
      cfgR, cfgW]

theorem Compare_err_eq (env : Env) (store0 : Store) (lower upper : List Mount)
    (opts : List (Config → Except GoError Config)) (c : Config) (rc : Config × Bool)
    (hc : applyOpts config0 opts = Except.ok c) (hr : resolveConfig c = Except.ok rc) :
    (Compare env store0 lower upper opts).err =
      (match (compareMounted env store0 rc.1 rc.2).res with
        | Except.error e => some e
        | Except.ok _ => none) := by
  simp only [Compare, hc, hr]
  cases hres : (compareMounted env store0 rc.1 rc.2).res <;> simp [hres]

theorem Compare_desc_eq (env : Env) (store0 : Store) (lower upper : List Mount)
    (opts : List (Config → Except GoError Config)) (c : Config) (rc : Config × Bool)
    (hc : applyOpts config0 opts = Except.ok c) (hr : resolveConfig c = Except.ok rc) :
    (Compare env store0 lower upper opts).desc =
      (match (compareMounted env store0 rc.1 rc.2).res with
        | Except.error _ => emptyDesc
        | Except.ok d => d) := by
  simp only [Compare, hc, hr]
  cases hres : (compareMounted env store0 rc.1 rc.2).res <;> simp [hres]

theorem Compare_events_eq (env : Env) (store0 : Store) (lower upper : List Mount)
    (opts : List (Config → Except GoError Config)) (c : Config) (rc : Config × Bool)
    (hc : applyOpts config0 opts = Except.ok c) (hr : resolveConfig c = Except.ok rc) :
    (Compare env store0 lower upper opts).events = (compareMounted env store0 rc.1 rc.2).events := by
  simp only [Compare, hc, hr]
  cases hres : (compareMounted env store0 rc.1 rc.2).res <;> simp [hres]

theorem Compare_store_eq (env : Env) (store0 : Store) (lower upper : List Mount)
    (opts : List (Config → Except GoError Config)) (c : Config) (rc : Config × Bool)
    (hc : applyOpts config0 opts = Except.ok c) (hr : resolveConfig c = Except.ok rc) :
    (Compare env store0 lower upper opts).store = (compareMounted env store0 rc.1 rc.2).store := by
  simp only [Compare, hc, hr]
  cases hres : (compareMounted env store0 rc.1 rc.2).res <;> simp [hres]

theorem commitPhase_res_fail (env : Env) (st : Store) (cfg : Config) (nr : Bool)
    (written : List Nat) (e : GoError)
    (hce : env.commitErr = some e) (hae : e.isAlreadyExists = false) :
    commitPhase env st cfg nr written =
      { res := Except.error (GoError.wrapf e ("failed to commit")), store := st,
        events := Event.commit (env.dgstFn written) cfg.labels ::
          cleanupEvents env nr cfg.reference } := by
  simp [commitPhase, hce, hae]

theorem commitPhase_AE (env : Env) (st : Store) (cfg : Config) (nr : Bool)
    (written : List Nat) (b0 : BlobInfo)
    (hce : env.commitErr = none) (hb : lookupBlob st.blobs (env.dgstFn written) = some b0) :
    commitPhase env st cfg nr written =
      reconcilePhase env st cfg (env.dgstFn written)
        [Event.commit (env.dgstFn written) cfg.labels] := by
  simp [commitPhase, hce, hb, GoError.isAlreadyExists]

theorem commitPhase_fresh (env : Env) (st : Store) (cfg : Config) (nr : Bool)
    (written : List Nat)
    (hce : env.commitErr = none) (hb : lookupBlob st.blobs (env.dgstFn written) = none) :
    commitPhase env st cfg nr written =
      reconcilePhase env
        ⟨(env.dgstFn written,
          BlobInfo.mk (env.dgstFn written) written.length cfg.labels) :: st.blobs⟩
        cfg (env.dgstFn written) [Event.commit (env.dgstFn written) cfg.labels] := by
  simp [commitPhase, hce, hb]

theorem reconcile_label_present (env : Env) (st : Store) (cfg : Config) (dgst : String)
    (evs : List Event) (b0 : BlobInfo) (v : String)
    (hinfo : env.infoErr = none) (hb : lookupBlob st.blobs dgst = some b0)
    (hv : mapLookup (b0.labels.getD []) uncompressed = some v) :
    reconcilePhase env st cfg dgst evs =
      { res := Except.ok { mediaType := cfg.mediaType, digest := b0.digest, size := b0.size },
        store := st, events := evs ++ [Event.infoCall dgst] } := by
  simp [reconcilePhase, hinfo, hb, hv]

theorem reconcile_label_absent (env : Env) (st : Store) (cfg : Config) (dgst : String)
    (evs : List Event) (b0 : BlobInfo)
    (hinfo : env.infoErr = none) (hb : lookupBlob st.blobs dgst = some b0)
    (hv : mapLookup (b0.labels.getD []) uncompressed = none)
    (hupd : env.updateErr = none) :
    reconcilePhase env st cfg dgst evs =
      { res := Except.ok { mediaType := cfg.mediaType, digest := b0.digest, size := b0.size },
        store := storeUpdateLabel st
          (BlobInfo.mk b0.digest b0.size
            (some (mapInsert (b0.labels.getD []) uncompressed
              (goGet (cfg.labels.getD []) uncompressed))))
          uncompressed,
        events := evs ++ [Event.infoCall dgst,
          Event.update b0.digest
            (mapInsert (b0.labels.getD []) uncompressed (goGet (cfg.labels.getD []) uncompressed))
            ("labels." ++ uncompressed)] } := by
  simp [reconcilePhase, hinfo, hb, hv, hupd]

/-- C3: an already-exists outcome at commit is treated as success: the error
is discarded, the run proceeds to label reconciliation, and a descriptor
built from the pre-existing blob is returned with no error; any commit error
other than already-exists fails the whole Compare with the wrapped commit
error. -/
theorem commit_already_exists_dedup
    (env : Env) (store0 : Store) (lower upper : List Mount)
    (opts : List (Config → Except GoError Config)) (c : Config) (rc : Config × Bool)
    (raw : List Nat) (b0 : BlobInfo)
    (hc : applyOpts config0 opts = Except.ok c)
    (hr : resolveConfig c = Except.ok rc)
    (hml : env.mountLowerErr = none) (hmu : env.mountUpperErr = none)
    (hw : env.writerErr = none) (ht : env.truncateErr = none)
    (hg : env.gzipNewErr = none) (hcu : env.customNewErr = none)
    (hwd : env.writeDiffRes = Except.ok raw) :
    (env.commitErr = none →
      lookupBlob store0.blobs (env.dgstFn (if rc.2 then env.compress raw else raw)) = some b0 →
      env.infoErr = none → env.updateErr = none →
      (Compare env store0 lower upper opts).err = none ∧
      (Compare env store0 lower upper opts).desc =
        { mediaType := rc.1.mediaType, digest := b0.digest, size := b0.size } ∧
      Event.infoCall (env.dgstFn (if rc.2 then env.compress raw else raw)) ∈
        (Compare env store0 lower upper opts).events) ∧
    (∀ e, env.commitErr = some e → e.isAlreadyExists = false →
      (Compare env store0 lower upper opts).err = some (GoError.wrapf e ("failed to commit")) ∧
      (Compare env store0 lower upper opts).desc = emptyDesc) := by
  have hcm := compareMounted_eq env store0 rc.1 rc.2 hml hmu hw ht hg hcu raw hwd
  have herr := Compare_err_eq env store0 lower upper opts c rc hc hr
  have hd := Compare_desc_eq env store0 lower upper opts c rc hc hr
  have hev := Compare_events_eq env store0 lower upper opts c rc hc hr
  rw [hcm] at herr hd hev
  constructor
  · intro hce hb0 hinfo hupd
    rw [commitPhase_AE env store0 (cfgW env rc.1 rc.2 raw) (rc.1.reference == "")
        (if rc.2 then env.compress raw else raw) b0 hce hb0] at herr hd hev
    rcases hv : mapLookup (b0.labels.getD []) uncompressed with _ | v
    · rw [reconcile_label_absent env store0 (cfgW env rc.1 rc.2 raw) _ _ b0 hinfo hb0 hv hupd]
        at herr hd hev
      exact ⟨by simp [herr], by simp [hd, cfgW_mediaType], by simp [hev]⟩
    · rw [reconcile_label_present env store0 (cfgW env rc.1 rc.2 raw) _ _ b0 v hinfo hb0 hv]
        at herr hd hev
      exact ⟨by simp [herr], by simp [hd, cfgW_mediaType], by simp [hev]⟩
  · intro e hce hae
    rw [commitPhase_res_fail env store0 (cfgW env rc.1 rc.2 raw) (rc.1.reference == "")
        (if rc.2 then env.compress raw else raw) e hce hae] at herr hd
    exact ⟨by simp [herr], by simp [hd]⟩

/-- A pre-existing blob already carrying an uncompressed-digest label. -/
def blobB : BlobInfo :=
  { digest := "sha256:xxxx", size := 9, labels := some [(uncompressed, "sha256:OTHER")] }

/-- A store already holding `blobB` under the digest Compare will compute. -/
def cexStore : Store := ⟨[("sha256:xxxx", blobB)]⟩

/-- Witness for C3's theorem: a concrete dedup run against `cexStore`. -/
theorem commit_already_exists_dedup_witness :
    (Compare envA cexStore [] [] []).err = none ∧
    (Compare envA cexStore [] [] []).desc =
      { mediaType := MediaTypeImageLayerGzip, digest := blobB.digest, size := blobB.size } ∧
    Event.infoCall ("sha256:xxxx") ∈ (Compare envA cexStore [] [] []).events :=
  (commit_already_exists_dedup envA cexStore [] [] [] config0
    (Config.mk MediaTypeImageLayerGzip none false "", true) [1, 2, 3] blobB
    rfl rfl rfl rfl rfl rfl rfl rfl rfl).1 rfl rfl rfl rfl

/-! ## Map and store lemmas for label reconciliation -/

theorem mapLookup_mapInsert_self (m : List (String × String)) (k v : String) :
    mapLookup (mapInsert m k v) k = some v := by
  induction m with
  | nil => simp [mapInsert, mapLookup]
  | cons p rest ih =>
    by_cases h : p.1 = k
    · simpa [mapInsert, List.filter_cons, h] using ih
    · simpa [mapInsert, List.filter_cons, h, mapLookup] using ih

theorem lookupBlob_wf (blobs : List (String × BlobInfo)) (d : String) (b : BlobInfo)
    (hwf : ∀ p ∈ blobs, p.2.digest = p.1) (hb : lookupBlob blobs d = some b) :
    b.digest = d := by
  induction blobs with
  | nil => simp [lookupBlob] at hb
  | cons p rest ih =>
    by_cases h : p.1 = d
    · simp [lookupBlob, h] at hb
      subst hb
      rw [hwf p (List.mem_cons_self p rest)]
      exact h
    · simp [lookupBlob, h] at hb
      exact ih (fun q hq => hwf q (List.mem_cons_of_mem p hq)) hb

theorem lookupBlob_storeUpdateLabel (blobs : List (String × BlobInfo)) (info : BlobInfo)
    (k d : String) :
    lookupBlob (storeUpdateLabel ⟨blobs⟩ info k).blobs d =
      (lookupBlob blobs d).map (fun b =>
        if d = info.digest then
          { b with labels := some (mapInsert (b.labels.getD []) k (goGet (info.labels.getD []) k)) }
        else b) := by
  induction blobs with
  | nil => simp [storeUpdateLabel, lookupBlob]
  | cons p rest ih =>
    by_cases hpd : p.1 = d
    · subst hpd
      by_cases hpi : p.1 = info.digest <;>
        simp [storeUpdateLabel, lookupBlob, hpi]
    · by_cases hpi : p.1 = info.digest
      · have hid : ¬(info.digest = d) := fun h => hpd (hpi ▸ h)
        simpa [storeUpdateLabel, lookupBlob, hpd, hpi, hid] using ih
      · simpa [storeUpdateLabel, lookupBlob, hpd, hpi] using ih

/-- C1 (amended): after a successful compressed Compare, the stored blob's
metadata carries the uncompressed-digest label; whenever the store did not
already hold that label for this digest, its value is the side accumulator's
digest of the raw uncompressed bytes (attached at commit for a fresh blob,
patched in during reconciliation for a deduped blob); a pre-existing label
value is preserved unchanged. -/
theorem compressed_label_present
    (env : Env) (store0 : Store) (lower upper : List Mount)
    (opts : List (Config → Except GoError Config)) (c : Config) (cc : Config)
    (raw : List Nat)
    (hc : applyOpts config0 opts = Except.ok c)
    (hr : resolveConfig c = Except.ok (cc, true))
    (hml : env.mountLowerErr = none) (hmu : env.mountUpperErr = none)
    (hw : env.writerErr = none) (ht : env.truncateErr = none)
    (hg : env.gzipNewErr = none) (hcu : env.customNewErr = none)
    (hwd : env.writeDiffRes = Except.ok raw)
    (hce : env.commitErr = none) (hinfo : env.infoErr = none) (hupd : env.updateErr = none)
    (hwf : storeWF store0) :
    (Compare env store0 lower upper opts).err = none ∧
    (match getLabel store0 (env.dgstFn (env.compress raw)) uncompressed with
      | some v0 => getLabel (Compare env store0 lower upper opts).store
          (env.dgstFn (env.compress raw)) uncompressed = some v0
      | none => getLabel (Compare env store0 lower upper opts).store
          (env.dgstFn (env.compress raw)) uncompressed = some (env.dgstFn raw)) := by
  have hcm := compareMounted_eq env store0 cc true hml hmu hw ht hg hcu raw hwd
  simp only [if_true, ite_true] at hcm
  have herr := Compare_err_eq env store0 lower upper opts c (cc, true) hc hr
  have hst := Compare_store_eq env store0 lower upper opts c (cc, true) hc hr
  rw [hcm] at herr hst
  have hlabels : (cfgW env cc true raw).labels =
      some (mapInsert (cc.labels.getD []) uncompressed (env.dgstFn raw)) := by
    simp [cfgW_labels]
  rcases hb : lookupBlob store0.blobs (env.dgstFn (env.compress raw)) with _ | b0
  · -- fresh commit: the committed blob already carries the label
    rw [commitPhase_fresh env store0 (cfgW env cc true raw) (cc.reference == "")
        (env.compress raw) hce hb] at herr hst
    have hlb1 : lookupBlob
        ((⟨(env.dgstFn (env.compress raw),
            BlobInfo.mk (env.dgstFn (env.compress raw)) (env.compress raw).length
              (cfgW env cc true raw).labels) :: store0.blobs⟩ : Store)).blobs
        (env.dgstFn (env.compress raw)) =
        some (BlobInfo.mk (env.dgstFn (env.compress raw)) (env.compress raw).length
          (cfgW env cc true raw).labels) := by
      simp [lookupBlob]
    have hml2 : mapLookup ((BlobInfo.mk (env.dgstFn (env.compress raw))
        (env.compress raw).length (cfgW env cc true raw).labels).labels.getD [])
        uncompressed = some (env.dgstFn raw) := by
      simp only [hlabels]
      simpa using mapLookup_mapInsert_self (cc.labels.getD []) uncompressed (env.dgstFn raw)
    rw [reconcile_label_present env _ (cfgW env cc true raw) (env.dgstFn (env.compress raw))
        _ _ (env.dgstFn raw) hinfo hlb1 hml2] at herr hst
    have h0 : getLabel store0 (env.dgstFn (env.compress raw)) uncompressed = none := by
      simp [getLabel, hb]
    rw [h0]
    refine ⟨by simp [herr], ?_⟩
    simp only [hst]
    simp only [getLabel, hlb1]
    exact hml2
  · -- dedup: the blob pre-exists
    have hb0d : b0.digest = env.dgstFn (env.compress raw) := lookupBlob_wf _ _ _ hwf hb
    rw [commitPhase_AE env store0 (cfgW env cc true raw) (cc.reference == "")
        (env.compress raw) b0 hce hb] at herr hst
    have h0 : getLabel store0 (env.dgstFn (env.compress raw)) uncompressed =
        mapLookup (b0.labels.getD []) uncompressed := by
      simp [getLabel, hb]
    rcases hv : mapLookup (b0.labels.getD []) uncompressed with _ | v0
    · -- label absent in stored metadata: patched during reconciliation
      rw [reconcile_label_absent env store0 (cfgW env cc true raw)
          (env.dgstFn (env.compress raw)) _ b0 hinfo hb hv hupd] at herr hst
      rw [h0, hv]
      refine ⟨by simp [herr], ?_⟩
      simp only [hst]
      have hval : goGet ((cfgW env cc true raw).labels.getD []) uncompressed = env.dgstFn raw := by
        simp only [hlabels]
        simp [goGet, mapLookup_mapInsert_self]
      rcases store0 with ⟨blobs0⟩
      simp only [getLabel, lookupBlob_storeUpdateLabel, hb0d]
      simp only [hb, Option.map_some]
      simp [hval, goGet, hlabels, mapLookup_mapInsert_self]
    · -- label present: the first writer's value is kept
      rw [reconcile_label_present env store0 (cfgW env cc true raw)
          (env.dgstFn (env.compress raw)) _ b0 v0 hinfo hb hv] at herr hst
      rw [h0, hv]
      refine ⟨by simp [herr], ?_⟩
      simp only [hst]
      simp [getLabel, hb, hv]

/-- Witness for C1's theorem: a fresh compressed commit against an empty
store ends with the label carrying the side accumulator digest. -/
theorem compressed_label_present_witness :
    (Compare envA ⟨[]⟩ [] [] []).err = none ∧
    (match getLabel (⟨[]⟩ : Store) (envA.dgstFn (envA.compress [1, 2, 3])) uncompressed with
      | some v0 => getLabel (Compare envA ⟨[]⟩ [] [] []).store
          (envA.dgstFn (envA.compress [1, 2, 3])) uncompressed = some v0
      | none => getLabel (Compare envA ⟨[]⟩ [] [] []).store
          (envA.dgstFn (envA.compress [1, 2, 3])) uncompressed = some (envA.dgstFn [1, 2, 3])) :=
  compressed_label_present envA ⟨[]⟩ [] [] [] config0
    (Config.mk MediaTypeImageLayerGzip none false "") [1, 2, 3]
    rfl rfl rfl rfl rfl rfl rfl rfl rfl rfl rfl rfl (by simp [storeWF])

/-- C1 counterexample: a successful compressed Compare that dedups against a
pre-existing blob whose uncompressed-digest label was set by an earlier
writer keeps that value, so the stored label is not the side accumulator
digest of this run's raw uncompressed bytes. -/
theorem compressed_label_cex :
    envA.writeDiffRes = Except.ok [1, 2, 3] ∧
    envA.dgstFn [1, 2, 3] = "sha256:xxx" ∧
    resolveConfig config0 = Except.ok (Config.mk MediaTypeImageLayerGzip none false "", true) ∧
    (Compare envA cexStore [] [] []).err = none ∧
    getLabel (Compare envA cexStore [] [] []).store ("sha256:xxxx") uncompressed =
      some ("sha256:OTHER") ∧
    getLabel (Compare envA cexStore [] [] []).store ("sha256:xxxx") uncompressed ≠
      some (envA.dgstFn [1, 2, 3]) := by
  decide

/-- C2 (amended): the reconciliation step patches the uncompressed-digest
label exactly when it is absent from the re-read metadata, using the value in
`config.Labels` under that key: the side accumulator digest on the
compressed path, and the Go zero-value lookup (empty string when the caller
set no such label) on the uncompressed path; an existing label value is
never overwritten. -/
theorem reconcile_label_rules
    (env : Env) (store0 : Store) (lower upper : List Mount)
    (opts : List (Config → Except GoError Config)) (c cc : Config) (isC : Bool)
    (raw : List Nat)
    (hc : applyOpts config0 opts = Except.ok c)
    (hr : resolveConfig c = Except.ok (cc, isC))
    (hml : env.mountLowerErr = none) (hmu : env.mountUpperErr = none)
    (hw : env.writerErr = none) (ht : env.truncateErr = none)
    (hg : env.gzipNewErr = none) (hcu : env.customNewErr = none)
    (hwd : env.writeDiffRes = Except.ok raw)
    (hce : env.commitErr = none) (hinfo : env.infoErr = none) (hupd : env.updateErr = none)
    (hwf : storeWF store0) :
    (∀ v0, getLabel store0 (env.dgstFn (if isC then env.compress raw else raw)) uncompressed =
        some v0 →
      getLabel (Compare env store0 lower upper opts).store
          (env.dgstFn (if isC then env.compress raw else raw)) uncompressed = some v0 ∧
      (∀ a b fp, Event.update a b fp ∉ (Compare env store0 lower upper opts).events)) ∧
    (∀ b0, lookupBlob store0.blobs (env.dgstFn (if isC then env.compress raw else raw)) =
        some b0 →
      mapLookup (b0.labels.getD []) uncompressed = none →
      Event.update b0.digest
          (mapInsert (b0.labels.getD []) uncompressed
            (if isC then env.dgstFn raw else goGet (cc.labels.getD []) uncompressed))
          ("labels." ++ uncompressed) ∈ (Compare env store0 lower upper opts).events ∧
      getLabel (Compare env store0 lower upper opts).store
          (env.dgstFn (if isC then env.compress raw else raw)) uncompressed =
        some (if isC then env.dgstFn raw else goGet (cc.labels.getD []) uncompressed)) ∧
    (lookupBlob store0.blobs (env.dgstFn (if isC then env.compress raw else raw)) = none →
      isC = false → mapLookup (cc.labels.getD []) uncompressed = none →
      Event.update (env.dgstFn (if isC then env.compress raw else raw))
          (mapInsert (cc.labels.getD []) uncompressed (""))
          ("labels." ++ uncompressed) ∈ (Compare env store0 lower upper opts).events ∧
      getLabel (Compare env store0 lower upper opts).store
          (env.dgstFn (if isC then env.compress raw else raw)) uncompressed = some ("")) := by
  have hcm := compareMounted_eq env store0 cc isC hml hmu hw ht hg hcu raw hwd
  have herr := Compare_err_eq env store0 lower upper opts c (cc, isC) hc hr
  have hst := Compare_store_eq env store0 lower upper opts c (cc, isC) hc hr
  have hev := Compare_events_eq env store0 lower upper opts c (cc, isC) hc hr
  rw [hcm] at herr hst hev
  have hval : goGet ((cfgW env cc isC raw).labels.getD []) uncompressed =
      (if isC then env.dgstFn raw else goGet (cc.labels.getD []) uncompressed) := by
    rcases isC <;> simp [cfgW_labels, goGet, mapLookup_mapInsert_self]
  refine ⟨?_, ?_, ?_⟩
  · intro v0 hv0
    rcases hlb : lookupBlob store0.blobs (env.dgstFn (if isC then env.compress raw else raw))
      with _ | b0
    · exact absurd hv0 (by simp [getLabel, hlb])
    · have hvb : mapLookup (b0.labels.getD []) uncompressed = some v0 := by
        simpa [getLabel, hlb] using hv0
      rw [commitPhase_AE env store0 (cfgW env cc isC raw) (cc.reference == "") _ b0 hce hlb]
        at hst hev
      rw [reconcile_label_present env store0 (cfgW env cc isC raw) _ _ b0 v0 hinfo hlb hvb]
        at hst hev
      constructor
      · simp [hst, getLabel, hlb, hvb]
      · intro a b fp
        rw [hev]
        rcases hnr : cc.reference == "" <;> simp
  · intro b0 hlb hvb
    have hb0d : b0.digest = env.dgstFn (if isC then env.compress raw else raw) :=
      lookupBlob_wf _ _ _ hwf hlb
    rw [commitPhase_AE env store0 (cfgW env cc isC raw) (cc.reference == "") _ b0 hce hlb]
      at hst hev
    rw [reconcile_label_absent env store0 (cfgW env cc isC raw) _ _ b0 hinfo hlb hvb hupd]
      at hst hev
    constructor
    · rw [hev, ← hval]
      rcases hnr : cc.reference == "" <;> simp
    · rw [hst]
      rcases store0 with ⟨blobs0⟩
      simp only [getLabel, lookupBlob_storeUpdateLabel, hb0d]
      simp only [hlb, Option.map_some]
      simp [goGet, hval, mapLookup_mapInsert_self]
      simpa [goGet] using hval
  · intro hlb hisC hvb
    subst hisC
    rw [commitPhase_fresh env store0 (cfgW env cc false raw) (cc.reference == "") _ hce hlb]
      at hst hev
    have hlab1 : (cfgW env cc false raw).labels = cc.labels := by
      simp [cfgW_labels]
    have hlb1 : lookupBlob
        ((⟨(env.dgstFn (if false then env.compress raw else raw),
            BlobInfo.mk (env.dgstFn (if false then env.compress raw else raw))
              (if false then env.compress raw else raw).length
              (cfgW env cc false raw).labels) :: store0.blobs⟩ : Store)).blobs
        (env.dgstFn (if false then env.compress raw else raw)) =
        some (BlobInfo.mk (env.dgstFn (if false then env.compress raw else raw))
          (if false then env.compress raw else raw).length (cfgW env cc false raw).labels) := by
      simp [lookupBlob]
    have hvb1 : mapLookup ((BlobInfo.mk (env.dgstFn (if false then env.compress raw else raw))
        (if false then env.compress raw else raw).length
        (cfgW env cc false raw).labels).labels.getD []) uncompressed = none := by
      simpa [hlab1] using hvb
    rw [reconcile_label_absent env _ (cfgW env cc false raw) _ _ _ hinfo hlb1 hvb1 hupd]
      at hst hev
    have hgg : goGet ((cfgW env cc false raw).labels.getD []) uncompressed = "" := by
      simp [hlab1, goGet, hvb]
    have hgg2 : goGet (cc.labels.getD []) uncompressed = "" := by
      simp [goGet, hvb]
    constructor
    · rw [hev]
      rcases hnr : cc.reference == "" <;> simp [hlab1, hgg, hgg2, hvb]
    · rw [hst]
      simp only [getLabel, lookupBlob_storeUpdateLabel]
      simp only [lookupBlob, if_pos rfl]
      simp [hlab1, hgg, hgg2, hvb, goGet, mapLookup_mapInsert_self]

/-- A pre-existing blob with no labels at all. -/
def blobC : BlobInfo := { digest := "sha256:xxxx", size := 9, labels := none }

/-- A store holding `blobC` under the digest Compare will compute. -/
def cexStoreC : Store := ⟨[("sha256:xxxx", blobC)]⟩

/-- Witness for C2's theorem: a dedup against a label-less blob patches the
label with the side accumulator digest. -/
theorem reconcile_label_rules_witness :
    Event.update ("sha256:xxxx") [(uncompressed, "sha256:xxx")] ("labels." ++ uncompressed) ∈
      (Compare envA cexStoreC [] [] []).events ∧
    getLabel (Compare envA cexStoreC [] [] []).store ("sha256:xxxx") uncompressed =
      some ("sha256:xxx") :=
  (reconcile_label_rules envA cexStoreC [] [] [] config0
      (Config.mk MediaTypeImageLayerGzip none false "") true [1, 2, 3]
      rfl rfl rfl rfl rfl rfl rfl rfl rfl rfl rfl rfl
      (by simp [storeWF, cexStoreC, blobC])).2.1 blobC rfl rfl

/-- An option list selecting the uncompressed layer media type. -/
def optsLayer : List (Config → Except GoError Config) :=
  [fun c => Except.ok { c with mediaType := MediaTypeImageLayer }]

/-- C2 counterexample: on the uncompressed path with no caller labels, no
uncompressed digest is computed, yet after a fresh commit the reconciliation
step still runs a label update, patching the empty string in — refuting the
claim that the patch happens only when this operation computed an
uncompressed digest. -/
theorem reconcile_label_cex :
    resolveConfig (Config.mk MediaTypeImageLayer none false "") =
      Except.ok (Config.mk MediaTypeImageLayer none false "", false) ∧
    (Compare envA ⟨[]⟩ [] [] optsLayer).err = none ∧
    Event.update ("sha256:xxx") [(uncompressed, "")] ("labels." ++ uncompressed) ∈
      (Compare envA ⟨[]⟩ [] [] optsLayer).events ∧
    getLabel (Compare envA ⟨[]⟩ [] [] optsLayer).store ("sha256:xxx") uncompressed =
      some ("") := by
  decide

/-! ## The abort result never influences the returned error -/

theorem reconcile_env_eq (env1 env2 : Env)
    (hi : env1.infoErr = env2.infoErr) (hu : env1.updateErr = env2.updateErr)
    (st : Store) (cfg : Config) (dgst : String) (evs : List Event) :
    reconcilePhase env1 st cfg dgst evs = reconcilePhase env2 st cfg dgst evs := by
  unfold reconcilePhase
  rw [hi, hu]

theorem commit_res_env_eq (env1 env2 : Env)
    (hce : env1.commitErr = env2.commitErr) (hdg : env1.dgstFn = env2.dgstFn)
    (hi : env1.infoErr = env2.infoErr) (hu : env1.updateErr = env2.updateErr)
    (st : Store) (cfg : Config) (nr : Bool) (written : List Nat) :
    (commitPhase env1 st cfg nr written).res = (commitPhase env2 st cfg nr written).res := by
  have hrec : ∀ (a : Store) (b : Config) (c : String) (d : List Event),
      reconcilePhase env1 a b c d = reconcilePhase env2 a b c d :=
    fun a b c d => reconcile_env_eq env1 env2 hi hu a b c d
  unfold commitPhase
  rw [hce, hdg]
  rcases hce2 : env2.commitErr with _ | e
  · rcases hb : lookupBlob st.blobs (env2.dgstFn written) with _ | b <;>
      simp [hb, GoError.isAlreadyExists, hrec]
  · by_cases hae : e.isAlreadyExists = true <;> simp [hae, hrec]

theorem write_res_env_eq (env1 env2 : Env)
    (hg : env1.gzipNewErr = env2.gzipNewErr) (hcu : env1.customNewErr = env2.customNewErr)
    (hwd : env1.writeDiffRes = env2.writeDiffRes) (hcp : env1.compress = env2.compress)
    (hce : env1.commitErr = env2.commitErr) (hdg : env1.dgstFn = env2.dgstFn)
    (hi : env1.infoErr = env2.infoErr) (hu : env1.updateErr = env2.updateErr)
    (st : Store) (cfg : Config) (nr isC : Bool) :
    (writePhase env1 st cfg nr isC).res = (writePhase env2 st cfg nr isC).res := by
  have hcmt : ∀ (b : Config) (d : List Nat),
      (commitPhase env1 st b nr d).res = (commitPhase env2 st b nr d).res :=
    fun b d => commit_res_env_eq env1 env2 hce hdg hi hu st b nr d
  unfold writePhase
  rw [hg, hcu, hwd, hcp, hdg]
  rcases isC <;> rcases hcc : cfg.compressor <;>
    rcases hw2 : env2.writeDiffRes with e3 | raw <;>
    rcases hg2 : env2.gzipNewErr with _ | e1 <;>
    rcases hcu2 : env2.customNewErr with _ | e2 <;>
    simp [hcc, hw2, hg2, hcu2, hcmt]

theorem afterOpen_res_env_eq (env1 env2 : Env)
    (ht : env1.truncateErr = env2.truncateErr)
    (hg : env1.gzipNewErr = env2.gzipNewErr) (hcu : env1.customNewErr = env2.customNewErr)
    (hwd : env1.writeDiffRes = env2.writeDiffRes) (hcp : env1.compress = env2.compress)
    (hce : env1.commitErr = env2.commitErr) (hdg : env1.dgstFn = env2.dgstFn)
    (hi : env1.infoErr = env2.infoErr) (hu : env1.updateErr = env2.updateErr)
    (st : Store) (cfg : Config) (nr isC : Bool) :
    (afterOpen env1 st cfg nr isC).res = (afterOpen env2 st cfg nr isC).res := by
  have hwp : (writePhase env1 st cfg nr isC).res = (writePhase env2 st cfg nr isC).res :=
    write_res_env_eq env1 env2 hg hcu hwd hcp hce hdg hi hu st cfg nr isC
  unfold afterOpen
  rw [ht]
  rcases nr <;> rcases ht2 : env2.truncateErr with _ | e <;> simp [ht2, hwp]

theorem compareMounted_res_env_eq (env1 env2 : Env)
    (hml : env1.mountLowerErr = env2.mountLowerErr)
    (hmu : env1.mountUpperErr = env2.mountUpperErr)
    (hw : env1.writerErr = env2.writerErr) (hfr : env1.freshRef = env2.freshRef)
    (ht : env1.truncateErr = env2.truncateErr)
    (hg : env1.gzipNewErr = env2.gzipNewErr) (hcu : env1.customNewErr = env2.customNewErr)
    (hwd : env1.writeDiffRes = env2.writeDiffRes) (hcp : env1.compress = env2.compress)
    (hce : env1.commitErr = env2.commitErr) (hdg : env1.dgstFn = env2.dgstFn)
    (hi : env1.infoErr = env2.infoErr) (hu : env1.updateErr = env2.updateErr)
    (st : Store) (cfg : Config) (isC : Bool) :
    (compareMounted env1 st cfg isC).res = (compareMounted env2 st cfg isC).res := by
  have hao : ∀ (b : Config) (nr : Bool),
      (afterOpen env1 st b nr isC).res = (afterOpen env2 st b nr isC).res :=
    fun b nr => afterOpen_res_env_eq env1 env2 ht hg hcu hwd hcp hce hdg hi hu st b nr isC
  unfold compareMounted
  rw [hml, hmu, hw, hfr]
  rcases hml2 : env2.mountLowerErr with _ | e1 <;>
    rcases hmu2 : env2.mountUpperErr with _ | e2 <;>
    rcases hw2 : env2.writerErr with _ | e3 <;>
    rcases hnr : cfg.reference == "" <;>
    simp [hml2, hmu2, hw2, hnr, hao]

theorem Compare_err_abortIrrel (env : Env) (ae : Option GoError) (store0 : Store)
    (lower upper : List Mount) (opts : List (Config → Except GoError Config)) :
    (Compare { env with abortErr := ae } store0 lower upper opts).err =
      (Compare env store0 lower upper opts).err := by
  rcases ha : applyOpts config0 opts with e | c
  · simp [Compare, ha]
  · rcases hr : resolveConfig c with e | rc
    · simp [Compare, ha, hr]
    · simp only [Compare, ha, hr]
      rw [compareMounted_res_env_eq { env with abortErr := ae } env
        rfl rfl rfl rfl rfl rfl rfl rfl rfl rfl rfl rfl rfl store0 rc.1 rc.2]
      rcases hres : (compareMounted env store0 rc.1 rc.2).res with e | d <;> simp [hres]

/-- True when the trace contains no info lookup. -/
def noInfoCall (evs : List Event) : Bool :=
  evs.all (fun ev => match ev with
    | Event.infoCall _ => false
    | _ => true)

/-- True when the trace contains no abort call. -/
def noAbort (evs : List Event) : Bool :=
  evs.all (fun ev => match ev with
    | Event.abort _ => false
    | _ => true)

theorem noInfoCall_not_mem (evs : List Event) (h : noInfoCall evs = true) (d : String) :
    Event.infoCall d ∉ evs := by
  intro hd
  have := List.all_eq_true.mp h _ hd
  simp at this

theorem compareMounted_open (env : Env) (st : Store) (cfg : Config) (isC : Bool)
    (hml : env.mountLowerErr = none) (hmu : env.mountUpperErr = none)
    (hw : env.writerErr = none) :
    compareMounted env st cfg isC =
      { res := (afterOpen env st (cfgR env cfg) (cfg.reference == "") isC).res,
        store := (afterOpen env st (cfgR env cfg) (cfg.reference == "") isC).store,
        events := [Event.mountLower, Event.mountUpper,
            Event.writerOpen (cfgR env cfg).reference cfg.mediaType] ++
          (afterOpen env st (cfgR env cfg) (cfg.reference == "") isC).events } := by
  rcases hnr : cfg.reference == "" <;>
    simp [compareMounted, hml, hmu, hw, hnr, cfgR]

/-- When no info lookup happened, the run after the writer opened ended in
the cleanup path: its events are some truncate/commit records followed by
the deferred cleanup. -/
theorem afterOpen_cleanup_of_noInfo (env : Env) (st : Store) (cfg : Config) (nr isC : Bool)
    (hni : ∀ d, Event.infoCall d ∉ (afterOpen env st cfg nr isC).events) :
    ∃ pre, (afterOpen env st cfg nr isC).events = pre ++ cleanupEvents env nr cfg.reference ∧
      ∀ ev ∈ pre, ev = Event.truncate ∨ ∃ a b, ev = Event.commit a b := by
  rcases afterOpen_shape env st cfg nr isC with ⟨hnr, -, hev, -⟩ | ⟨-, -, hev⟩
  · exact ⟨[Event.truncate], by simpa using hev, by simp⟩
  · rcases writePhase_shape env st cfg nr isC with ⟨-, hev2, -⟩ | ⟨cfg2, written, hcref, heq⟩
    · exact ⟨if nr then [] else [Event.truncate], by rw [hev, hev2], by rcases nr <;> simp⟩
    · rcases commitPhase_shape env st cfg2 nr written with ⟨-, hev3, -⟩ | ⟨st2, heq2⟩
      · refine ⟨(if nr then [] else [Event.truncate]) ++
            [Event.commit (env.dgstFn written) cfg2.labels], ?_, ?_⟩
        · rw [hev, heq, hev3, hcref]
          simp
        · rcases nr <;> simp
      · exfalso
        have hmem : Event.infoCall (env.dgstFn written) ∈ (afterOpen env st cfg nr isC).events := by
          rw [hev, heq, heq2]
          simp [reconcile_infoCall_mem]
        exact hni _ hmem

/-- C4: on every error after the writer opened and before a successful
commit (observable as a trace with no info lookup), the writer is closed;
the staged reference is aborted exactly when it was freshly generated, an
abort failure is logged without replacing the original error, and a
caller-supplied reference is never aborted. -/
theorem cleanup_on_error
    (env : Env) (store0 : Store) (lower upper : List Mount)
    (opts : List (Config → Except GoError Config)) (c : Config) (rc : Config × Bool)
    (e : GoError)
    (hc : applyOpts config0 opts = Except.ok c)
    (hr : resolveConfig c = Except.ok rc)
    (hml : env.mountLowerErr = none) (hmu : env.mountUpperErr = none)
    (hw : env.writerErr = none)
    (he : (Compare env store0 lower upper opts).err = some e)
    (hni : noInfoCall (Compare env store0 lower upper opts).events = true) :
    Event.close ∈ (Compare env store0 lower upper opts).events ∧
    (rc.1.reference = "" →
      Event.abort env.freshRef ∈ (Compare env store0 lower upper opts).events ∧
      (env.abortErr ≠ none →
        Event.logWarn env.freshRef ∈ (Compare env store0 lower upper opts).events)) ∧
    (rc.1.reference ≠ "" → noAbort (Compare env store0 lower upper opts).events = true) ∧
    (Compare { env with abortErr := none } store0 lower upper opts).err = some e := by
  have hev := Compare_events_eq env store0 lower upper opts c rc hc hr
  rw [compareMounted_open env store0 rc.1 rc.2 hml hmu hw] at hev
  simp only [] at hev
  have hniA : ∀ d, Event.infoCall d ∉
      (afterOpen env store0 (cfgR env rc.1) (rc.1.reference == "") rc.2).events := by
    intro d hd
    have hmem : Event.infoCall d ∈ (Compare env store0 lower upper opts).events := by
      rw [hev]
      simp [hd]
    exact noInfoCall_not_mem _ hni d hmem
  obtain ⟨pre, hevA, hpre⟩ :=
    afterOpen_cleanup_of_noInfo env store0 (cfgR env rc.1) (rc.1.reference == "") rc.2 hniA
  rw [hevA] at hev
  refine ⟨?_, ?_, ?_, ?_⟩
  · rw [hev]
    simp [cleanup_close]
  · intro hrefe
    have hnr : (rc.1.reference == "") = true := by simp [hrefe]
    have hrefF : (cfgR env rc.1).reference = env.freshRef := by simp [cfgR, hrefe]
    rw [hnr, hrefF] at hev
    constructor
    · rw [hev]
      simp [cleanup_abort_fresh]
    · intro hae
      rw [hev]
      simp [cleanup_logWarn _ _ hae]
  · intro hrefne
    have hnr : (rc.1.reference == "") = false := by simp [hrefne]
    rw [hnr] at hev
    rw [hev]
    have hpreAll : pre.all (fun ev => match ev with
        | Event.abort _ => false
        | _ => true) = true :=
      List.all_eq_true.mpr (fun ev hevm => by
        rcases hpre ev hevm with h | ⟨a, b, h⟩ <;> subst h <;> rfl)
    simp [noAbort, List.all_append, cleanupEvents, hpreAll]
  · rw [Compare_err_abortIrrel]
    exact he

/-- An environment whose diff streamer fails and whose abort also fails. -/
def envFail : Env :=
  { envA with
      writeDiffRes := Except.error (GoError.errNew ("io")),
      abortErr := some (GoError.errNew ("af")) }

/-- Witness for C4's theorem: a failing stream write with a fresh reference
closes the writer, aborts the staged reference, logs the abort failure, and
still reports the stream error. -/
theorem cleanup_on_error_witness :
    Event.close ∈ (Compare envFail ⟨[]⟩ [] [] []).events ∧
    ((Config.mk MediaTypeImageLayerGzip none false "").reference = "" →
      Event.abort envFail.freshRef ∈ (Compare envFail ⟨[]⟩ [] [] []).events ∧
      (envFail.abortErr ≠ none →
        Event.logWarn envFail.freshRef ∈ (Compare envFail ⟨[]⟩ [] [] []).events)) ∧
    ((Config.mk MediaTypeImageLayerGzip none false "").reference ≠ "" →
      noAbort (Compare envFail ⟨[]⟩ [] [] []).events = true) ∧
    (Compare { envFail with abortErr := none } ⟨[]⟩ [] [] []).err =
      some (GoError.wrapf (GoError.errNew ("io")) ("failed to write compressed diff")) :=
  cleanup_on_error envFail ⟨[]⟩ [] [] [] config0
    (Config.mk MediaTypeImageLayerGzip none false "", true)
    (GoError.wrapf (GoError.errNew ("io")) ("failed to write compressed diff"))
    rfl rfl rfl rfl rfl (by decide) (by decide)
